import Mathlib

/-!
Shallow embedding of the code-review-api analysis pipeline.

Sources embedded here:
- `src/controllers/analysis.controller.js` (AnalysisController:
  createAnalysis, getAnalysis, getUserAnalyses, deleteAnalysis,
  getAnalysisStats);
- the full `AnalysisService` (createAnalysis, getAnalysisWithSuggestions,
  processAnalysis, saveSuggestions, updateAnalysisStatus,
  calculateTotalLines, saveErrorSuggestion);
- the full `OpenAIService` (analyzeCode, buildAnalysisPrompt,
  parseAndValidateResponse, isValidSuggestion, cleanSuggestion,
  getFallbackAnalysis).

JavaScript-specific semantics (parseInt producing NaN, truthiness of
values, `||` defaulting, substring truncation) are modelled explicitly;
NaN is modelled as `none` in `Option Int`, since every operation the code
applies to a NaN (Math.max/Math.min) propagates it.
-/

namespace CodeReviewApi

/-- Longest leading run of decimal digits of a character list, as a number;
`none` when there is no leading digit (JS `parseInt` returns NaN). -/
def leadingDigits (cs : List Char) : Option Nat :=
  let ds := cs.takeWhile Char.isDigit
  if ds.isEmpty then none
  else some (ds.foldl (fun a c => a * 10 + (c.toNat - 48)) 0)

/-- Whether a character is a hexadecimal digit. -/
def isHexDigitChar (c : Char) : Bool :=
  c.isDigit || (decide ('a' ≤ c) && decide (c ≤ 'f')) || (decide ('A' ≤ c) && decide (c ≤ 'F'))

/-- Numeric value of a hexadecimal digit character. -/
def hexVal (c : Char) : Nat :=
  if c.isDigit then c.toNat - 48
  else if decide ('a' ≤ c) && decide (c ≤ 'f') then c.toNat - 87
  else c.toNat - 55

/-- Longest leading run of hexadecimal digits of a character list, as a
number; `none` when there is no leading hex digit. -/
def leadingHexDigits (cs : List Char) : Option Nat :=
  let ds := cs.takeWhile isHexDigitChar
  if ds.isEmpty then none
  else some (ds.foldl (fun a c => a * 16 + hexVal c) 0)

/-- The unsigned part of JS `parseInt` with radix autodetection: a
leading `0x`/`0X` switches to base 16 (JS parseInt("0x10") is 16);
otherwise the longest decimal digit run. -/
def jsParseDigits (cs : List Char) : Option Nat :=
  match cs with
  | '0' :: x :: rest =>
    if x = 'x' || x = 'X' then leadingHexDigits rest else leadingDigits cs
  | _ => leadingDigits cs

/-- JS `parseInt(s)` (no radix argument): skip leading whitespace,
optional sign, then the autodetected-radix digit run; NaN (`none`) when
no digit follows. -/
def jsParseInt (s : String) : Option Int :=
  let cs := s.data.dropWhile (fun c => c = ' ' || c = '\t' || c = '\n' || c = '\r')
  match cs with
  | '-' :: rest => (jsParseDigits rest).map (fun n => -(n : Int))
  | '+' :: rest => (jsParseDigits rest).map (fun n => (n : Int))
  | _ => (jsParseDigits cs).map (fun n => (n : Int))

/-- JS `s || dflt` for strings: the empty string is falsy. -/
def jsStrOr (s : Option String) (dflt : String) : String :=
  match s with
  | none => dflt
  | some s => if s = "" then dflt else s

/-- JS strict inequality `s !== u` where `u` may be `undefined`
(modelled `none`): a string is never strictly equal to `undefined`. -/
def strNeqOpt (s : String) (u : Option String) : Bool :=
  match u with
  | none => true
  | some t => s != t

/-- Analysis status enum (Prisma `AnalysisStatus`). -/
inductive Status where
  | PENDING
  | PROCESSING
  | COMPLETED
  | FAILED
deriving DecidableEq, Repr

/-- String form of a status, as stored/compared in the JS code. -/
def Status.toStr : Status → String
  | .PENDING => "PENDING"
  | .PROCESSING => "PROCESSING"
  | .COMPLETED => "COMPLETED"
  | .FAILED => "FAILED"

/-- A persisted suggestion row (Prisma `Suggestion`, minus id/analysisId
which the claims never constrain). -/
structure Suggestion where
  filePath : String
  lineNumber : Int
  severity : String
  category : String
  message : String
  suggestion : String
  codeSnippet : Option String
deriving DecidableEq, Repr

/-- A JSON value, used to model the duck-typed payload the OpenAI adapter
validates. A missing object field is modelled as `jnull` (JS `undefined`
behaves the same under every check the code performs). -/
inductive JValue where
  | jnull
  | jbool (b : Bool)
  | jnum (n : Int)
  | jstr (s : String)
  | jarr (items : List JValue)
  | jobj (fields : List (String × JValue))

/-- JS truthiness of a JSON value (NaN payload values are not modelled:
JSON.parse never produces NaN). -/
def JValue.truthy : JValue → Bool
  | .jnull => false
  | .jbool b => b
  | .jnum n => n != 0
  | .jstr s => s != ""
  | .jarr _ => true
  | .jobj _ => true

/-- Property access `v.k`: field lookup on an object, `undefined`
(modelled `jnull`) otherwise. Accessing a property of `null` throws in
JS; every such access in the adapter happens inside the try/catch that
produces the fallback, and `jnull` fails the subsequent checks the same
way, so the outcome is identical. -/
def JValue.getField : JValue → String → JValue
  | .jobj fields, k =>
    match fields.find? (fun p => p.1 == k) with
    | some p => p.2
    | none => .jnull
  | _, _ => .jnull

/-- `typeof v === 'string'`. -/
def JValue.isStr : JValue → Bool
  | .jstr _ => true
  | _ => false

/-- `typeof v === 'number'`. -/
def JValue.isNum : JValue → Bool
  | .jnum _ => true
  | _ => false

/-- `Array.isArray(v)`. -/
def JValue.isArr : JValue → Bool
  | .jarr _ => true
  | _ => false

namespace OpenAIService

/-- OpenAIService.isValidSuggestion: the per-suggestion structural check.
`['HIGH','MEDIUM','LOW'].includes(x)` is strict equality, so a non-string
severity fails it. -/
def isValidSuggestion (v : JValue) : Bool :=
  v.truthy
    && (v.getField "filePath").isStr
    && (v.getField "lineNumber").isNum
    && (match v.getField "severity" with
        | .jstr s => s == "HIGH" || s == "MEDIUM" || s == "LOW"
        | _ => false)
    && (v.getField "category").isStr
    && (v.getField "message").isStr
    && (v.getField "suggestion").isStr

/-- OpenAIService.cleanSuggestion. `parseInt` of a JS number that is an
integer is the number itself; `n || 1` maps 0 to 1; `Math.max(1, ·)`
then clamps to ≥ 1. `.trim()` on a non-string value throws a TypeError
(modelled as `.error ()`), which the enclosing try/catch converts into
the fallback report; this can only happen through `codeSnippet`, the one
field `isValidSuggestion` leaves untyped. -/
def cleanSuggestion (v : JValue) : Except Unit Suggestion :=
  match v.getField "filePath", v.getField "lineNumber", v.getField "severity",
        v.getField "category", v.getField "message", v.getField "suggestion" with
  | .jstr fp, .jnum n, .jstr sev, .jstr cat, .jstr msg, .jstr sug =>
    let cs := v.getField "codeSnippet"
    if cs.truthy then
      match cs with
      | .jstr s =>
        .ok { filePath := fp.trim
              lineNumber := max 1 (if n = 0 then 1 else n)
              severity := sev.toUpper
              category := cat.trim
              message := (msg.trim).take 200
              suggestion := (sug.trim).take 500
              codeSnippet := some ((s.trim).take 300) }
      | _ => .error ()
    else
      .ok { filePath := fp.trim
            lineNumber := max 1 (if n = 0 then 1 else n)
            severity := sev.toUpper
            category := cat.trim
            message := (msg.trim).take 200
            suggestion := (sug.trim).take 500
            codeSnippet := none }
  | _, _, _, _, _, _ => .error ()

/-- Output summary of the adapter: counts are recomputed, rating and
concerns are passed through from the raw payload. -/
structure SummaryOut where
  totalIssues : Nat
  criticalIssues : Nat
  overallRating : JValue
  mainConcerns : List JValue

/-- The adapter's result: summary plus cleaned suggestions. -/
structure AnalysisReport where
  summary : SummaryOut
  suggestions : List Suggestion

/-- OpenAIService.getFallbackAnalysis: the single-suggestion fallback
report returned when the payload cannot be parsed or validated. -/
def getFallbackAnalysis : AnalysisReport :=
  { summary :=
      { totalIssues := 1
        criticalIssues := 0
        overallRating := .jstr "needs_improvement"
        mainConcerns := [.jstr "Analysis failed - please try again"] }
    suggestions :=
      [{ filePath := "analysis-error"
         lineNumber := 1
         severity := "MEDIUM"
         category := "Analysis Error"
         message := "Failed to analyze code properly"
         suggestion := "The AI analysis encountered an error. Please try analyzing this PR again."
         codeSnippet := none }] }

/-- The validation body of OpenAIService.parseAndValidateResponse: every
`throw` site inside the try block becomes `none` (caught by the catch
that returns the fallback). Mirrors the source's check order: summary and
suggestions present and truthy; summary fields typed; then filter and
clean the suggestions and recompute counts. -/
def validatePayload (v : JValue) : Option AnalysisReport :=
  let summary := v.getField "summary"
  let sugg := v.getField "suggestions"
  if !(summary.truthy && sugg.truthy) then none
  else if !((summary.getField "totalIssues").isNum
        && (summary.getField "criticalIssues").isNum
        && (summary.getField "overallRating").truthy
        && (summary.getField "mainConcerns").isArr) then none
  else
    match sugg with
    | .jarr items =>
      match (items.filter isValidSuggestion).mapM cleanSuggestion with
      | .error _ => none
      | .ok cleaned =>
        let critical := (cleaned.filter (fun s => s.severity == "HIGH")).length
        let mainConcerns :=
          match summary.getField "mainConcerns" with
          | .jarr mc => mc.take 5
          | _ => []
        some
          { summary :=
              { totalIssues := cleaned.length
                criticalIssues := critical
                overallRating := summary.getField "overallRating"
                mainConcerns := mainConcerns }
            suggestions := cleaned }
    | _ => none

/-- OpenAIService.parseAndValidateResponse: JSON.parse failure
(`.error ()`) or any validation failure yields the fallback report. -/
def parseAndValidateResponse (resp : Except Unit JValue) : AnalysisReport :=
  match resp with
  | .error _ => getFallbackAnalysis
  | .ok v => (validatePayload v).getD getFallbackAnalysis

/-- An error raised by the OpenAI client library, as inspected by the
catch block of analyzeCode. -/
structure OpenAIError where
  code : String
  message : String

/-- The catch block of OpenAIService.analyzeCode: maps known client error
codes to stable messages and rethrows. -/
def mapOpenAIError (e : OpenAIError) : String :=
  if e.code == "rate_limit_exceeded" then
    "OpenAI rate limit exceeded. Please try again later."
  else if e.code == "insufficient_quota" then
    "OpenAI API quota exceeded. Please check your billing."
  else if e.code == "invalid_request_error" then
    "Invalid request to OpenAI API. The code might be too large."
  else
    "Failed to analyze code with AI: " ++ e.message

/-- OpenAIService.analyzeCode. `cached` is the fingerprint-keyed cache
lookup; `call` is the outcome of the external completion call: an
unrecoverable call failure is `.error e` and is rethrown (mapped) by the
catch block — only a successfully returned payload reaches
parseAndValidateResponse (whose own failures become the fallback, not an
error). -/
def analyzeCode (cached : Option AnalysisReport)
    (call : Except OpenAIError (Except Unit JValue)) : Except String AnalysisReport :=
  match cached with
  | some a => .ok a
  | none =>
    match call with
    | .error e => .error (mapOpenAIError e)
    | .ok resp => .ok (parseAndValidateResponse resp)

end OpenAIService

/-- Metadata of a pull request as consumed by buildAnalysisPrompt
(GitHubService.getPRDiff's `pr` object). -/
structure PRMeta where
  number : Int
  title : String
  body : Option String
  additions : Int
  deletions : Int
  changed_files : Int
deriving DecidableEq, Repr

/-- One changed file of a pull request (GitHubService.getPRDiff's file
mapping); `patch` is absent for binary files. -/
structure PRFile where
  filename : String
  status : String
  additions : Int
  deletions : Int
  patch : Option String
deriving DecidableEq, Repr

/-- The DiffBundle handed to the suggestion-engine adapter. -/
structure PRData where
  pr : PRMeta
  files : List PRFile
deriving DecidableEq, Repr

/-- The PR-context header of the prompt (`pr.body || 'No description
provided'` treats an empty body as absent). -/
def promptHeader (pr : PRMeta) : String :=
  "Please analyze this pull request:\n\n## Pull Request Context\n- **Title**: "
    ++ pr.title
    ++ "\n- **Description**: " ++ jsStrOr pr.body "No description provided"
    ++ "\n- **Changes**: " ++ toString pr.additions ++ " additions, "
    ++ toString pr.deletions ++ " deletions across "
    ++ toString pr.changed_files ++ " files\n\n## File Changes to Analyze:\n\n"

/-- The patch text included for one file: patches longer than 2000
characters are cut at 2000 and a truncation marker is appended. -/
def patchText (p : String) : String :=
  if 2000 < p.length then p.take 2000 ++ "\n... (truncated)" else p

/-- The prompt section for one file; `if (file.patch)` skips the code
block for an absent or empty patch. -/
def fileSection (f : PRFile) : String :=
  "### File: " ++ f.filename
    ++ "\n**Status**: " ++ f.status
    ++ "\n**Changes**: +" ++ toString f.additions ++ " -" ++ toString f.deletions ++ "\n\n"
    ++ (match f.patch with
        | some p =>
          if p = "" then ""
          else "**Code Changes**:\n```diff\n" ++ patchText p ++ "\n```\n\n"
        | none => "")

/-- The forEach over the files with its index guard: a file at index 10
or beyond contributes nothing (JS `if (index >= 10) return`). -/
def renderFiles (i : Nat) : List PRFile → String
  | [] => ""
  | f :: rest => (if 10 ≤ i then "" else fileSection f) ++ renderFiles (i + 1) rest

/-- The trailing analysis instructions of the prompt. -/
def promptFooter : String :=
  "\n## Analysis Instructions\n\nPlease analyze the above code changes and provide:\n\n1. **Overall Assessment**: Rate the code quality and identify main concerns\n2. **Specific Issues**: Find problems in the code with exact line references\n3. **Improvement Suggestions**: Provide actionable recommendations\n\nFocus on critical issues first, then important quality improvements.\n\nRemember to respond with valid JSON only."

/-- OpenAIService.buildAnalysisPrompt: header, the guarded file sections,
then the instructions. -/
def buildAnalysisPrompt (d : PRData) : String :=
  promptHeader d.pr ++ renderFiles 0 d.files ++ promptFooter

/-- Concatenation of a list of prompt sections. -/
def sectionsText : List String → String
  | [] => ""
  | s :: rest => s ++ sectionsText rest

/-- Mutable fields of one AnalysisRecord as seen by a pipeline run:
status, attached suggestions, computed line total, completion stamp. -/
structure AnalysisState where
  status : Status
  suggestions : List Suggestion
  totalLines : Option Int
  completedAt : Bool
deriving DecidableEq, Repr

namespace AnalysisService

/-- AnalysisService.saveErrorSuggestion: the synthetic suggestion
persisted when a pipeline run fails, carrying the failure message. -/
def errorSuggestion (msg : String) : Suggestion :=
  { filePath := "analysis-error"
    lineNumber := 1
    severity := "HIGH"
    category := "Analysis Error"
    message := "Analysis failed to complete"
    suggestion := "Error: " ++ msg
    codeSnippet := none }

/-- AnalysisService.calculateTotalLines: sum of additions + deletions
over the files (the `|| 0` guards are identities here since the fields
are always numbers in the bundle built by getPRDiff). -/
def calculateTotalLines (files : List PRFile) : Int :=
  files.foldl (fun total f => total + f.additions + f.deletions) 0

/-- Environment of one pipeline run: whether the record still exists at
load time, and the outcome of each fallible step (`none`/`.ok` =
success, `some m`/`.error m` = the step throws with message `m`). -/
structure PipelineEnv where
  recordExists : Bool
  setProcessingErr : Option String
  fetchDiff : Except String PRData
  persistLinesErr : Option String
  analyze : Except String OpenAIService.AnalysisReport
  saveErr : Option String
  setCompletedErr : Option String

/-- The try-block of AnalysisService.processAnalysis after the record is
loaded: set PROCESSING, fetch the diff, persist the line total, run the
engine adapter, save the suggestions (a no-op for an empty list), mark
COMPLETED. An error carries the failure message together with the state
the record had reached when the step threw. -/
def runSteps (env : PipelineEnv) (s : AnalysisState) :
    Except (String × AnalysisState) AnalysisState :=
  match env.setProcessingErr with
  | some m => .error (m, s)
  | none =>
    let s1 := { s with status := .PROCESSING }
    match env.fetchDiff with
    | .error m => .error (m, s1)
    | .ok d =>
      match env.persistLinesErr with
      | some m => .error (m, s1)
      | none =>
        let s2 := { s1 with totalLines := some (calculateTotalLines d.files) }
        match env.analyze with
        | .error m => .error (m, s2)
        | .ok report =>
          let saved : Except (String × AnalysisState) AnalysisState :=
            if report.suggestions.isEmpty then .ok s2
            else
              match env.saveErr with
              | some m => .error (m, s2)
              | none => .ok { s2 with suggestions := s2.suggestions ++ report.suggestions }
          match saved with
          | .error e => .error e
          | .ok s3 =>
            match env.setCompletedErr with
            | some m => .error (m, s3)
            | none => .ok { s3 with status := .COMPLETED, completedAt := true }

/-- AnalysisService.processAnalysis: a missing record throws before any
status change; otherwise the catch block of the try marks the record
FAILED, persists the single synthetic error-suggestion and rethrows the
error to its caller. -/
def processAnalysis (env : PipelineEnv) (s : AnalysisState) :
    Except String Unit × AnalysisState :=
  if env.recordExists then
    match runSteps env s with
    | .ok s' => (.ok (), s')
    | .error (m, sf) =>
      (.error m,
       { sf with status := .FAILED, suggestions := sf.suggestions ++ [errorSuggestion m] })
  else
    (.error "Analysis not found", s)

/-- The setImmediate callback of AnalysisController.createAnalysis step 6:
runs processAnalysis detached from the request, catches anything it
rethrows and re-marks the record FAILED; nothing escapes this boundary. -/
def backgroundTask (env : PipelineEnv) (s : AnalysisState) :
    Except String Unit × AnalysisState :=
  match processAnalysis env s with
  | (.ok u, s') => (.ok u, s')
  | (.error _, s') => (.ok (), { s' with status := .FAILED })

end AnalysisService

/-- One formatted entry of a paginated listing response (id, PR number,
status, suggestion count; the severity breakdown adds nothing the claims
constrain). -/
structure FormattedAnalysis where
  id : String
  prNumber : Nat
  status : Status
  suggestionsCount : Nat
deriving DecidableEq, Repr

/-- A paginated listing response as cached and returned by
getUserAnalyses. -/
structure ListResp where
  analyses : List FormattedAnalysis
  total : Nat
  page : Int
  limit : Int
deriving DecidableEq, Repr

/-- The per-analysis response payload of getAnalysis. -/
structure GetResp where
  id : String
  repositoryId : String
  prNumber : Nat
  status : Status
  suggestions : List Suggestion
deriving DecidableEq, Repr

/-- What getAnalysis caches for a COMPLETED analysis: the response data
plus the owning userId, kept for the access-control check on a hit. -/
structure CachedAnalysis where
  resp : GetResp
  userId : String
deriving DecidableEq, Repr

/-- The statistics response of getAnalysisStats (overview counts; the
derived rates and recent-activity list add nothing the claims
constrain). -/
structure StatsResp where
  totalAnalyses : Nat
  completedAnalyses : Nat
  failedAnalyses : Nat
  processingAnalyses : Nat
  totalSuggestions : Nat
deriving DecidableEq, Repr

/-- A persisted AnalysisRecord (Prisma `Analysis`), with its suggestions
inlined (the relational `include` view). -/
structure AnalysisRow where
  id : String
  repositoryId : String
  userId : String
  prNumber : Nat
  commitSha : String
  status : Status
  totalLines : Option Int
  createdAt : Nat
  completedAt : Option Nat
  suggestions : List Suggestion
deriving DecidableEq, Repr

/-- The Redis cache, split by key namespace; keys keep the exact string
format the source builds, so an invalidation only removes an entry whose
key matches character for character. The `analysis:full:` namespace is
written by the full AnalysisService.getAnalysisWithSuggestions. -/
structure Cache where
  analysisCache : List (String × CachedAnalysis)
  analysisFullCache : List (String × AnalysisRow)
  listCache : List (String × ListResp)
  statsCache : List (String × StatsResp)
deriving DecidableEq, Repr

/-- `redis.get`: lookup by exact key. -/
def lookupKey {α : Type} (l : List (String × α)) (k : String) : Option α :=
  match l.find? (fun p => p.1 == k) with
  | some p => some p.2
  | none => none

/-- `redis.del key`: removes exactly the entries whose key equals `k`. -/
def delCacheKey {α : Type} (l : List (String × α)) (k : String) : List (String × α) :=
  l.filter (fun p => !(p.1 == k))

/-- `redis.setex key ttl value` (TTL not modelled). -/
def putCacheKey {α : Type} (l : List (String × α)) (k : String) (v : α) : List (String × α) :=
  (k, v) :: delCacheKey l k

/-- A connected repository row (Prisma `Repository`). -/
structure Repo where
  id : String
  userId : String
  fullName : String
  name : String
  isActive : Bool
deriving DecidableEq, Repr

/-- The relational store: repositories and analyses. -/
structure Db where
  repos : List Repo
  analyses : List AnalysisRow
deriving DecidableEq, Repr

/-- The error taxonomy of utils/errors.js as used by the controller. -/
inductive CtrlError where
  | notFound (m : String)
  | authz (m : String)
  | validation (m : String)
  | internal (m : String)
deriving DecidableEq, Repr

/-- Rank used by the suggestion `orderBy: severity desc` clause; the
code's comment documents HIGH as the top of the enum order. -/
def severityRank (s : String) : Int :=
  if s == "HIGH" then 2 else if s == "MEDIUM" then 1 else 0

/-- Comparison of the `orderBy: [{severity: desc}, {lineNumber: asc}]`
clause: higher severity first, then ascending line number. -/
def suggestionLe (a b : Suggestion) : Bool :=
  if severityRank a.severity == severityRank b.severity then
    decide (a.lineNumber ≤ b.lineNumber)
  else
    decide (severityRank b.severity < severityRank a.severity)

/-- Insertion into a suggestion list sorted by `le`. -/
def insertSortedSugg (le : Suggestion → Suggestion → Bool) (x : Suggestion) :
    List Suggestion → List Suggestion
  | [] => [x]
  | y :: rest => if le x y then x :: y :: rest else y :: insertSortedSugg le x rest

/-- Insertion sort over suggestions, modelling the store's `orderBy`. -/
def sortSuggestionsBy (le : Suggestion → Suggestion → Bool) :
    List Suggestion → List Suggestion
  | [] => []
  | x :: rest => insertSortedSugg le x (sortSuggestionsBy le rest)

namespace AnalysisService

/-- The full AnalysisService.getAnalysisWithSuggestions(analysisId,
userId): cache-first under `analysis:full:{id}` with an ownership check
against the userId parameter (NotFoundError on mismatch); on a miss,
findUnique with suggestions ordered severity HIGH-first then ascending
line number, the same ownership check, and COMPLETED results cached.
The catch block rethrows NotFoundError. Both controllers call it with a
single argument, so `userId` is `undefined` (`none`) there and the
ownership check compares a string owner against undefined. -/
def getAnalysisWithSuggestions (db : Db) (cache : Cache) (analysisId : String)
    (userId : Option String) : Except CtrlError AnalysisRow × Cache :=
  let cacheKey := "analysis:full:" ++ analysisId
  match lookupKey cache.analysisFullCache cacheKey with
  | some cachedAnalysis =>
    if strNeqOpt cachedAnalysis.userId userId then
      (.error (.notFound "Analysis not found"), cache)
    else
      (.ok cachedAnalysis, cache)
  | none =>
    match db.analyses.find? (fun a => a.id == analysisId) with
    | none => (.error (.notFound "Analysis not found"), cache)
    | some a =>
      if strNeqOpt a.userId userId then
        (.error (.notFound "Analysis not found"), cache)
      else
        let transformed :=
          { a with suggestions := sortSuggestionsBy suggestionLe a.suggestions }
        if a.status == .COMPLETED then
          (.ok transformed,
           { cache with
               analysisFullCache := putCacheKey cache.analysisFullCache cacheKey transformed })
        else
          (.ok transformed, cache)

end AnalysisService

namespace AnalysisController

/-- The three success responses of createAnalysis: reuse of a COMPLETED
record (200), reuse of an in-flight record (202), or a freshly started
analysis (202). -/
inductive CreateResp where
  | alreadyCompleted (analysisId : String) (status : Status) (analysis : AnalysisRow)
  | alreadyInProgress (analysisId : String) (status : Status) (createdAt : Nat)
  | started (analysisId : String) (status : Status) (prNumber : Nat)
deriving DecidableEq, Repr

/-- Everything a createAnalysis call produces: the HTTP-level result, the
store and cache afterwards, and whether a pipeline run was scheduled via
setImmediate. -/
structure CreateOut where
  result : Except CtrlError CreateResp
  db : Db
  cache : Cache
  scheduledPipeline : Bool
deriving Repr

/-- External-collaborator outcomes consumed by createAnalysis: the GitHub
access check, the PR-info probe (`.error m` = the call threw, `.ok b` =
it returned a truthy/falsy value), and the id and timestamp the store
assigns to a fresh record. -/
structure CreateEnv where
  hasAccess : Bool
  prInfo : Except String Bool
  newId : String
  now : Nat

/-- The natural-key predicate of the `repositoryId_prNumber` unique
constraint lookup. -/
def keyPred (repositoryId : String) (prNumber : Nat) (a : AnalysisRow) : Bool :=
  a.repositoryId == repositoryId && a.prNumber == prNumber

/-- Steps 4-8 of createAnalysis, reached when no reusable record exists:
verify the PR on GitHub (both a thrown error and a falsy result become a
wrapped ValidationError), create the PENDING record, schedule the
pipeline, delete the user-listing cache key, respond 202. -/
def proceedCreate (env : CreateEnv) (db : Db) (cache : Cache) (repo : Repo)
    (repositoryId : String) (prNumber : Nat) (userId : String) : CreateOut :=
  match env.prInfo with
  | .error m =>
    ⟨.error (.validation ("Unable to access pull request #" ++ toString prNumber ++ ": " ++ m)),
     db, cache, false⟩
  | .ok false =>
    ⟨.error (.validation ("Unable to access pull request #" ++ toString prNumber
        ++ ": Pull request #" ++ toString prNumber ++ " not found in " ++ repo.fullName)),
     db, cache, false⟩
  | .ok true =>
    let newRec : AnalysisRow :=
      { id := env.newId, repositoryId := repositoryId, userId := userId, prNumber := prNumber,
        commitSha := "", status := .PENDING, totalLines := none, createdAt := env.now,
        completedAt := none, suggestions := [] }
    ⟨.ok (.started env.newId .PENDING prNumber),
     { db with analyses := db.analyses ++ [newRec] },
     { cache with listCache := delCacheKey cache.listCache ("user:analyses:" ++ userId) },
     true⟩

/-- AnalysisController.createAnalysis: repository ownership check, GitHub
access re-verification, then the reuse-vs-recreate decision on the
natural-key lookup (COMPLETED → return existing with suggestions;
PROCESSING/PENDING → already-in-progress; FAILED → delete and fall
through to creation; absent → creation). -/
def createAnalysis (env : CreateEnv) (db : Db) (cache : Cache)
    (repositoryId : String) (prNumber : Nat) (userId : String) : CreateOut :=
  match db.repos.find? (fun r => r.id == repositoryId && r.userId == userId && r.isActive) with
  | none => ⟨.error (.notFound "Repository not found or access denied"), db, cache, false⟩
  | some repo =>
    if !env.hasAccess then
      ⟨.error (.authz "No access to this repository on GitHub"), db, cache, false⟩
    else
      match db.analyses.find? (keyPred repositoryId prNumber) with
      | some existing =>
        if existing.status == .COMPLETED then
          match AnalysisService.getAnalysisWithSuggestions db cache existing.id none with
          | (.error e, cache') => ⟨.error e, db, cache', false⟩
          | (.ok full, cache') =>
            ⟨.ok (.alreadyCompleted existing.id existing.status full), db, cache', false⟩
        else if existing.status == .PROCESSING || existing.status == .PENDING then
          ⟨.ok (.alreadyInProgress existing.id existing.status existing.createdAt),
           db, cache, false⟩
        else
          proceedCreate env
            { db with analyses := db.analyses.filter (fun x => !(x.id == existing.id)) }
            cache repo repositoryId prNumber userId
      | none => proceedCreate env db cache repo repositoryId prNumber userId

/-- The diff fetcher (GitHubService.getPRDiff) is called only from
AnalysisService.processAnalysis, which runs only as the background task
a createAnalysis call schedules; a call that schedules no pipeline never
reaches it. -/
def invokesDiffFetcher (o : CreateOut) : Bool := o.scheduledPipeline

/-- The suggestion engine (OpenAIService.analyzeCode) is called only from
AnalysisService.processAnalysis, which runs only as the background task
a createAnalysis call schedules. -/
def invokesSuggestionEngine (o : CreateOut) : Bool := o.scheduledPipeline

/-- AnalysisController.getAnalysis: cache-first by id; a hit still checks
that the cached record's owner is the requester; a miss loads from the
store, checks ownership, and caches COMPLETED results. -/
def getAnalysis (db : Db) (cache : Cache) (analysisId userId : String) :
    Except CtrlError GetResp × Cache :=
  let cacheKey := "analysis:" ++ analysisId
  match lookupKey cache.analysisCache cacheKey with
  | some cachedData =>
    if cachedData.userId != userId then
      (.error (.authz "Access denied to this analysis"), cache)
    else
      (.ok cachedData.resp, cache)
  | none =>
    match AnalysisService.getAnalysisWithSuggestions db cache analysisId none with
    | (.error e, cache') => (.error e, cache')
    | (.ok a, cache') =>
      if a.userId != userId then
        (.error (.authz "Access denied to this analysis"), cache')
      else
        let resp : GetResp :=
          { id := a.id, repositoryId := a.repositoryId, prNumber := a.prNumber,
            status := a.status, suggestions := a.suggestions }
        if a.status == .COMPLETED then
          (.ok resp,
           { cache' with
               analysisCache := putCacheKey cache'.analysisCache cacheKey ⟨resp, a.userId⟩ })
        else
          (.ok resp, cache')

/-- The query parameters of a list-analyses request; a field is `none`
when the query string omits it (JS destructuring defaults apply then). -/
structure ListQuery where
  page : Option String := none
  limit : Option String := none
  status : Option String := none
  repositoryId : Option String := none
  sortBy : Option String := none
  sortOrder : Option String := none
deriving DecidableEq, Repr

/-- `Math.max(1, parseInt(page))` with default page 1: NaN (`none`)
propagates through Math.max. -/
def effPageNum (page : Option String) : Option Int :=
  (match page with
   | none => some 1
   | some s => jsParseInt s).map (fun n => max 1 n)

/-- `Math.max(1, Math.min(50, parseInt(limit)))` with default limit 10:
NaN (`none`) propagates through Math.min and Math.max. -/
def effLimitNum (limit : Option String) : Option Int :=
  (match limit with
   | none => some 10
   | some s => jsParseInt s).map (fun n => max 1 (min 50 n))

/-- The whitelist of sortable fields. -/
def validSortFields : List String := ["createdAt", "completedAt", "status", "prNumber"]

/-- A rank for sorting by status (Prisma orders an enum by its schema
declaration order). -/
def statusRank : Status → Int
  | .PENDING => 0
  | .PROCESSING => 1
  | .COMPLETED => 2
  | .FAILED => 3

/-- The sort key a `orderBy: {field: order}` clause reads from a row. -/
def sortKey (field : String) (a : AnalysisRow) : Int :=
  if field == "completedAt" then ((a.completedAt.getD 0 : Nat) : Int)
  else if field == "status" then statusRank a.status
  else if field == "prNumber" then (a.prNumber : Int)
  else (a.createdAt : Int)

/-- Insertion into a list sorted by `le`. -/
def insertSorted (le : AnalysisRow → AnalysisRow → Bool) (x : AnalysisRow) :
    List AnalysisRow → List AnalysisRow
  | [] => [x]
  | y :: rest => if le x y then x :: y :: rest else y :: insertSorted le x rest

/-- Insertion sort, modelling the store's `orderBy`. -/
def sortRows (le : AnalysisRow → AnalysisRow → Bool) : List AnalysisRow → List AnalysisRow
  | [] => []
  | x :: rest => insertSorted le x (sortRows le rest)

/-- The listing projection of one row. -/
def formatAnalysis (a : AnalysisRow) : FormattedAnalysis :=
  { id := a.id, prNumber := a.prNumber, status := a.status,
    suggestionsCount := a.suggestions.length }

/-- `if (status)` style guard: a present but empty string is falsy. -/
def strTruthy (o : Option String) : Option String :=
  match o with
  | none => none
  | some s => if s = "" then none else some s

/-- Whether a present status filter uppercases to a valid
AnalysisStatus enum value: the code passes `status.toUpperCase()` to the
store's where clause, and the store rejects an invalid enum value, so
the query (and the request) fails instead of matching zero rows. -/
def statusFilterOk (q : ListQuery) : Bool :=
  match strTruthy q.status with
  | none => true
  | some s => ["PENDING", "PROCESSING", "COMPLETED", "FAILED"].contains s.toUpper

/-- AnalysisController.getUserAnalyses: clamp pagination, build the
composite cache key, serve a hit as-is, otherwise filter/sort/paginate
the store and cache the page. A NaN page or limit reaches the store
call, which rejects it (no page is produced); no cache entry can exist
under a NaN-bearing key because entries are only written after a
successful store query. -/
def getUserAnalyses (db : Db) (cache : Cache) (userId : String) (q : ListQuery) :
    Except CtrlError ListResp × Cache :=
  match effPageNum q.page, effLimitNum q.limit with
  | some p, some l =>
    let sortByStr := q.sortBy.getD "createdAt"
    let sortOrderStr := q.sortOrder.getD "desc"
    let cacheKey := "user:analyses:" ++ userId ++ ":" ++ toString p ++ ":" ++ toString l
        ++ ":" ++ jsStrOr q.status "all" ++ ":" ++ jsStrOr q.repositoryId "all"
        ++ ":" ++ sortByStr ++ ":" ++ sortOrderStr
    match lookupKey cache.listCache cacheKey with
    | some cachedData => (.ok cachedData, cache)
    | none =>
      if !(statusFilterOk q) then
        (.error (.internal "Invalid status filter value"), cache)
      else
      let filtered := db.analyses.filter (fun a =>
        a.userId == userId
          && (match strTruthy q.status with
              | none => true
              | some s => a.status.toStr == s.toUpper)
          && (match strTruthy q.repositoryId with
              | none => true
              | some r => a.repositoryId == r))
      let sortField := if validSortFields.contains sortByStr then sortByStr else "createdAt"
      let asc := sortOrderStr.toLower == "asc"
      let le := fun a b =>
        if asc then decide (sortKey sortField a ≤ sortKey sortField b)
        else decide (sortKey sortField b ≤ sortKey sortField a)
      let sorted := sortRows le filtered
      let offset := ((p - 1) * l).toNat
      let pageItems := (sorted.drop offset).take l.toNat
      let resp : ListResp :=
        { analyses := pageItems.map formatAnalysis, total := filtered.length,
          page := p, limit := l }
      (.ok resp, { cache with listCache := putCacheKey cache.listCache cacheKey resp })
  | _, _ => (.error (.internal "Invalid pagination parameters"), cache)

/-- AnalysisController.deleteAnalysis: ownership and not-PROCESSING
checks, cascade-delete the record, then delete exactly the cache keys
`analysis:{id}` and `user:analyses:{userId}`. -/
def deleteAnalysis (db : Db) (cache : Cache) (analysisId userId : String) :
    Except CtrlError Unit × Db × Cache :=
  match db.analyses.find? (fun a => a.id == analysisId) with
  | none => (.error (.notFound "Analysis not found"), db, cache)
  | some a =>
    if a.userId != userId then
      (.error (.authz "Access denied to this analysis"), db, cache)
    else if a.status == .PROCESSING then
      (.error (.validation "Cannot delete analysis that is currently processing"), db, cache)
    else
      (.ok (),
       { db with analyses := db.analyses.filter (fun x => !(x.id == analysisId)) },
       { cache with
           analysisCache := delCacheKey cache.analysisCache ("analysis:" ++ analysisId),
           listCache := delCacheKey cache.listCache ("user:analyses:" ++ userId) })

/-- AnalysisController.getAnalysisStats: cache-first under
`user:stats:{userId}`, otherwise recompute the overview counts from the
store and cache them. -/
def getAnalysisStats (db : Db) (cache : Cache) (userId : String) :
    Except CtrlError StatsResp × Cache :=
  let cacheKey := "user:stats:" ++ userId
  match lookupKey cache.statsCache cacheKey with
  | some s => (.ok s, cache)
  | none =>
    let mine := db.analyses.filter (fun a => a.userId == userId)
    let stats : StatsResp :=
      { totalAnalyses := mine.length
        completedAnalyses := (mine.filter (fun a => a.status == .COMPLETED)).length
        failedAnalyses := (mine.filter (fun a => a.status == .FAILED)).length
        processingAnalyses := (mine.filter (fun a => a.status == .PENDING || a.status == .PROCESSING)).length
        totalSuggestions := (mine.map (fun a => a.suggestions.length)).sum }
    (.ok stats, { cache with statsCache := putCacheKey cache.statsCache cacheKey stats })

end AnalysisController

/-- Number of records carrying a given natural key. The store's unique
constraint on (repositoryId, prNumber) makes this at most 1. -/
def keyCount (l : List AnalysisRow) (rid : String) (pn : Nat) : Nat :=
  (l.filter (AnalysisController.keyPred rid pn)).length

/-- A record counts as active while a pipeline run may still be working
on it. -/
def activePred (a : AnalysisRow) : Bool :=
  a.status == .PENDING || a.status == .PROCESSING

/-- Number of PENDING/PROCESSING records carrying a given natural key. -/
def activeCount (l : List AnalysisRow) (rid : String) (pn : Nat) : Nat :=
  ((l.filter (AnalysisController.keyPred rid pn)).filter activePred).length

/-- Recognizes the synthetic error-suggestion persisted by
saveErrorSuggestion (its fixed filePath/message pair; the engine's
fallback suggestion carries a different message). -/
def isErrorSuggestion (x : Suggestion) : Bool :=
  x.filePath == "analysis-error" && x.message == "Analysis failed to complete"

/-- Number of synthetic error-suggestions in a suggestion list. -/
def errCount (l : List Suggestion) : Nat :=
  (l.filter isErrorSuggestion).length

/-- Invariant: every cached listing page holds at most 50 analyses. Only
getUserAnalyses writes listing entries, always a page of at most the
clamped limit, and every other operation merely deletes listing keys, so
this holds in every reachable cache state. -/
abbrev listCacheBounded (cache : Cache) : Prop :=
  ∀ e ∈ cache.listCache, e.2.analyses.length ≤ 50

/-- Concrete scenario data for the cache-invalidation claim: one user
`u1` owning one COMPLETED analysis `a1` of PR #5 on repository `r1`. -/
def c4row : AnalysisRow :=
  { id := "a1", repositoryId := "r1", userId := "u1", prNumber := 5, commitSha := "sha",
    status := .COMPLETED, totalLines := some 10, createdAt := 100, completedAt := some 200,
    suggestions := [{ filePath := "f.js", lineNumber := 3, severity := "HIGH",
                      category := "Security", message := "msg", suggestion := "sugg",
                      codeSnippet := none }] }

/-- The store at the start of the cache-invalidation scenario. -/
def c4db : Db :=
  { repos := [{ id := "r1", userId := "u1", fullName := "o/r", name := "r", isActive := true }],
    analyses := [c4row] }

/-- First listing read: computed from the store and cached under the
composite listing key. -/
def c4list1 := AnalysisController.getUserAnalyses c4db ⟨[], [], [], []⟩ "u1" {}

/-- First statistics read: computed from the store and cached under
`user:stats:u1`. -/
def c4stats1 := AnalysisController.getAnalysisStats c4db c4list1.2 "u1"

/-- The write: deleting analysis `a1`, which clears exactly the keys
`analysis:a1` and `user:analyses:u1`. -/
def c4del := AnalysisController.deleteAnalysis c4db c4stats1.2 "a1" "u1"

/-- Listing read after the delete, against the post-delete store and
cache. -/
def c4list2 := AnalysisController.getUserAnalyses c4del.2.1 c4del.2.2 "u1" {}

/-- Statistics read after the delete. -/
def c4stats2 := AnalysisController.getAnalysisStats c4del.2.1 c4list2.2 "u1"

theorem take_length_le (s : String) (n : Nat) : (s.take n).length ≤ n := by
  rw [← String.length_data, String.data_take]
  simp [List.length_take]

theorem getAnalysisWithSuggestions_undefined (db : Db) (cache : Cache) (analysisId : String) :
    AnalysisService.getAnalysisWithSuggestions db cache analysisId none
      = (.error (.notFound "Analysis not found"), cache) := by
  simp only [AnalysisService.getAnalysisWithSuggestions]
  cases h1 : lookupKey cache.analysisFullCache ("analysis:full:" ++ analysisId) with
  | some c => simp [h1, strNeqOpt]
  | none =>
    cases h2 : db.analyses.find? (fun a => a.id == analysisId) with
    | none => simp [h1, h2]
    | some a => simp [h1, h2, strNeqOpt]

theorem lookupKey_mem {α : Type} {l : List (String × α)} {k : String} {v : α}
    (h : lookupKey l k = some v) : ∃ e ∈ l, e.2 = v := by
  unfold lookupKey at h
  cases hf : l.find? (fun p => p.1 == k) with
  | none => rw [hf] at h; exact Option.noConfusion h
  | some p =>
    rw [hf] at h
    injection h with h'
    exact ⟨p, List.mem_of_find?_eq_some hf, h'⟩

theorem bounded_del {l : List (String × ListResp)} {k : String}
    (h : ∀ e ∈ l, e.2.analyses.length ≤ 50) :
    ∀ e ∈ delCacheKey l k, e.2.analyses.length ≤ 50 :=
  fun e he => h e (List.mem_of_mem_filter he)

theorem bounded_put {l : List (String × ListResp)} {k : String} {r : ListResp}
    (h : ∀ e ∈ l, e.2.analyses.length ≤ 50) (hr : r.analyses.length ≤ 50) :
    ∀ e ∈ putCacheKey l k r, e.2.analyses.length ≤ 50 := by
  intro e he
  rcases List.mem_cons.mp he with rfl | he'
  · exact hr
  · exact h e (List.mem_of_mem_filter he')

theorem effLimitNum_bounds {x : Option String} {l : Int}
    (h : AnalysisController.effLimitNum x = some l) : 1 ≤ l ∧ l ≤ 50 := by
  unfold AnalysisController.effLimitNum at h
  rcases hx : (match x with | none => some (10 : Int) | some s => jsParseInt s) with _ | k
  · rw [hx] at h; simp at h
  · rw [hx] at h
    simp only [Option.map_some', Option.some.injEq] at h
    rw [← h]
    exact ⟨le_max_left _ _, max_le (by norm_num) (min_le_left _ _)⟩

theorem effPageNum_pos {x : Option String} {p : Int}
    (h : AnalysisController.effPageNum x = some p) : 1 ≤ p := by
  unfold AnalysisController.effPageNum at h
  rcases hx : (match x with | none => some (1 : Int) | some s => jsParseInt s) with _ | k
  · rw [hx] at h; simp at h
  · rw [hx] at h
    simp only [Option.map_some', Option.some.injEq] at h
    rw [← h]
    exact le_max_left _ _

theorem filter_swap (p q : AnalysisRow → Bool) (l : List AnalysisRow) :
    (l.filter q).filter p = (l.filter p).filter q := by
  rw [List.filter_filter, List.filter_filter]
  congr 1
  funext a
  exact Bool.and_comm _ _

theorem activeCount_le_keyCount (l : List AnalysisRow) (r : String) (p : Nat) :
    activeCount l r p ≤ keyCount l r p :=
  List.length_filter_le _ _

theorem keyCount_append (l₁ l₂ : List AnalysisRow) (r : String) (p : Nat) :
    keyCount (l₁ ++ l₂) r p = keyCount l₁ r p + keyCount l₂ r p := by
  simp [keyCount, List.filter_append]

theorem activeCount_append (l₁ l₂ : List AnalysisRow) (r : String) (p : Nat) :
    activeCount (l₁ ++ l₂) r p = activeCount l₁ r p + activeCount l₂ r p := by
  simp [activeCount, List.filter_append]

theorem keyCount_eq_zero_of_find_none {l : List AnalysisRow} {r : String} {p : Nat}
    (h : l.find? (AnalysisController.keyPred r p) = none) : keyCount l r p = 0 := by
  rw [keyCount, List.length_eq_zero, List.filter_eq_nil_iff]
  exact fun x hx => List.find?_eq_none.mp h x hx

theorem keyCount_filter_le (l : List AnalysisRow) (q : AnalysisRow → Bool)
    (r : String) (p : Nat) : keyCount (l.filter q) r p ≤ keyCount l r p := by
  unfold keyCount
  rw [filter_swap]
  exact List.length_filter_le _ _

theorem activeCount_filter_le (l : List AnalysisRow) (q : AnalysisRow → Bool)
    (r : String) (p : Nat) : activeCount (l.filter q) r p ≤ activeCount l r p := by
  unfold activeCount
  rw [filter_swap (AnalysisController.keyPred r p) q, filter_swap activePred q]
  exact List.length_filter_le _ _

theorem all_key_eq {l : List AnalysisRow} {r : String} {p : Nat} {a : AnalysisRow}
    (ha : a ∈ l) (hpa : AnalysisController.keyPred r p a = true)
    (h1 : keyCount l r p ≤ 1) :
    ∀ b ∈ l, AnalysisController.keyPred r p b = true → b = a := by
  intro b hb hpb
  have ha' : a ∈ l.filter (AnalysisController.keyPred r p) := List.mem_filter.mpr ⟨ha, hpa⟩
  have hb' : b ∈ l.filter (AnalysisController.keyPred r p) := List.mem_filter.mpr ⟨hb, hpb⟩
  rcases hf : l.filter (AnalysisController.keyPred r p) with _ | ⟨x, xs⟩
  · rw [hf] at ha'; cases ha'
  · rw [keyCount, hf] at h1
    have hxs : xs = [] := by
      simpa [List.length_eq_zero] using Nat.le_of_succ_le_succ h1
    rw [hf, hxs] at ha' hb'
    rcases List.mem_singleton.mp ha' with rfl
    exact List.mem_singleton.mp hb'

theorem keyCount_after_delete {l : List AnalysisRow} {r : String} {p : Nat}
    {existing : AnalysisRow}
    (he : l.find? (AnalysisController.keyPred r p) = some existing)
    (h1 : keyCount l r p ≤ 1) :
    keyCount (l.filter (fun x => !(x.id == existing.id))) r p = 0 := by
  have hmem := List.mem_of_find?_eq_some he
  have hkey := List.find?_some he
  rw [keyCount, List.length_eq_zero, List.filter_eq_nil_iff]
  intro b hb
  rcases List.mem_filter.mp hb with ⟨hbl, hbid⟩
  intro hpb
  rcases all_key_eq hmem hkey h1 b hbl hpb
  simp at hbid

theorem renderFiles_eq (fs : List PRFile) :
    ∀ i, renderFiles i fs = sectionsText ((fs.take (10 - i)).map fileSection) := by
  induction fs with
  | nil => intro i; simp [renderFiles, sectionsText]
  | cons f rest ih =>
    intro i
    by_cases h : 10 ≤ i
    · have h0 : 10 - i = 0 := Nat.sub_eq_zero_of_le h
      have h1 : 10 - (i + 1) = 0 := Nat.sub_eq_zero_of_le (Nat.le_succ_of_le h)
      rw [h0]
      simp only [renderFiles, if_pos h]
      rw [ih (i + 1), h1]
      simp [sectionsText]
    · have hs : 10 - i = (10 - (i + 1)) + 1 := by omega
      rw [hs]
      simp only [renderFiles, if_neg h, List.take_succ_cons, List.map_cons, sectionsText]
      rw [ih (i + 1)]

/-- C7: on a getAnalysis cache hit whose cached record belongs to a user
other than the requester, the call fails with the Authorization error and
leaves the cache untouched; the cached payload is never returned. -/
theorem C7_cached_hit_authorization (db : Db) (cache : Cache)
    (analysisId userId : String) (d : CachedAnalysis)
    (hhit : lookupKey cache.analysisCache ("analysis:" ++ analysisId) = some d)
    (hmismatch : d.userId ≠ userId) :
    AnalysisController.getAnalysis db cache analysisId userId
      = (.error (.authz "Access denied to this analysis"), cache) := by
  have hb : (d.userId != userId) = true := by simp [hmismatch]
  simp only [AnalysisController.getAnalysis]
  rw [hhit]
  simp [hb]

theorem C7_cached_hit_authorization_witness :
    AnalysisController.getAnalysis ⟨[], []⟩
      ⟨[("analysis:a1", ⟨⟨"a1", "r1", 5, .COMPLETED, []⟩, "owner"⟩)], [], [], []⟩
      "a1" "intruder"
      = (.error (.authz "Access denied to this analysis"),
         ⟨[("analysis:a1", ⟨⟨"a1", "r1", 5, .COMPLETED, []⟩, "owner"⟩)], [], [], []⟩) :=
  C7_cached_hit_authorization _ _ _ _
    ⟨⟨"a1", "r1", 5, .COMPLETED, []⟩, "owner"⟩ rfl (by decide)

/-- C8: the prompt contains exactly the sections of the first 10 files
(later files contribute nothing), and any included patch longer than 2000
characters appears as its first 2000 characters followed by the
truncation marker. -/
theorem C8_prompt_bounded (d : PRData) :
    buildAnalysisPrompt d
      = promptHeader d.pr ++ sectionsText ((d.files.take 10).map fileSection) ++ promptFooter
    ∧ (d.files.take 10).length ≤ 10
    ∧ (∀ f ∈ d.files.take 10, ∀ p, f.patch = some p → 2000 < p.length →
        patchText p = p.take 2000 ++ "\n... (truncated)"
        ∧ (p.take 2000).length ≤ 2000) := by
  refine ⟨?_, ?_, ?_⟩
  · unfold buildAnalysisPrompt
    rw [renderFiles_eq d.files 0]
  · simp [List.length_take]
  · intro f _ p _ hlen
    exact ⟨by rw [patchText, if_pos hlen], take_length_le p 2000⟩

theorem C8_prompt_bounded_witness :
    patchText (String.mk (List.replicate 2001 'a'))
      = (String.mk (List.replicate 2001 'a')).take 2000 ++ "\n... (truncated)"
    ∧ 2000 < (String.mk (List.replicate 2001 'a')).length := by
  have hlen : (String.mk (List.replicate 2001 'a')).length = 2001 := by
    rw [← String.length_data]
    show (List.replicate 2001 'a').length = 2001
    rw [List.length_replicate]
  refine ⟨((C8_prompt_bounded
      ⟨⟨1, "t", none, 1, 0, 1⟩,
        [⟨"a.js", "modified", 1, 0, some (String.mk (List.replicate 2001 'a'))⟩]⟩).2.2
      ⟨"a.js", "modified", 1, 0, some (String.mk (List.replicate 2001 'a'))⟩
      (by simp) (String.mk (List.replicate 2001 'a')) rfl ?_).1, ?_⟩
  · rw [hlen]; norm_num
  · rw [hlen]; norm_num

/-- C9 counterexample: a non-numeric limit value parses to NaN, which
Math.min/Math.max propagate, so the effective page size is not clamped
into 1..50; the store call then rejects the request and no page is
produced. This refutes the clamping claim for arbitrary query values. -/
theorem C9_nan_counterexample :
    AnalysisController.effLimitNum (some "abc") = none
    ∧ AnalysisController.effLimitNum (some "abc") ≠ some 50
    ∧ (AnalysisController.getUserAnalyses ⟨[], []⟩ ⟨[], [], [], []⟩ "u1"
        { limit := some "abc" }).1
      = .error (.internal "Invalid pagination parameters") :=
  ⟨rfl, fun h => Option.noConfusion h, rfl⟩

theorem getUserAnalyses_ok_bound {db : Db} {cache : Cache} {uid : String}
    {q : AnalysisController.ListQuery} {r : ListResp}
    (hinv : listCacheBounded cache)
    (hok : (AnalysisController.getUserAnalyses db cache uid q).1 = .ok r) :
    r.analyses.length ≤ 50 := by
  cases hp : AnalysisController.effPageNum q.page with
  | none =>
    simp [AnalysisController.getUserAnalyses, hp] at hok
  | some p =>
    cases hl : AnalysisController.effLimitNum q.limit with
    | none =>
      simp [AnalysisController.getUserAnalyses, hp, hl] at hok
    | some l =>
      have hbounds := effLimitNum_bounds hl
      simp only [AnalysisController.getUserAnalyses, hp, hl] at hok
      split at hok
      · rename_i c heq
        dsimp only at hok
        injection hok with hcr
        subst hcr
        obtain ⟨e, he, hev⟩ := lookupKey_mem heq
        have hb := hinv e he
        rw [hev] at hb
        exact hb
      · split at hok
        · dsimp only at hok
          exact absurd hok (fun hh => Except.noConfusion hh)
        · dsimp only at hok
          injection hok with hr
          subst hr
          simp only [List.length_map]
          have h1 : ∀ xs : List AnalysisRow, (xs.take l.toNat).length ≤ l.toNat := fun xs => by
            rw [List.length_take]
            exact min_le_left _ _
          have h2 : l.toNat ≤ 50 := by omega
          exact le_trans (h1 _) h2

theorem getUserAnalyses_preserves {db : Db} {cache : Cache} {uid : String}
    {q : AnalysisController.ListQuery}
    (hinv : listCacheBounded cache) :
    listCacheBounded (AnalysisController.getUserAnalyses db cache uid q).2 := by
  cases hp : AnalysisController.effPageNum q.page with
  | none =>
    simp only [AnalysisController.getUserAnalyses, hp]
    exact hinv
  | some p =>
    cases hl : AnalysisController.effLimitNum q.limit with
    | none =>
      simp only [AnalysisController.getUserAnalyses, hp, hl]
      exact hinv
    | some l =>
      have hbounds := effLimitNum_bounds hl
      simp only [AnalysisController.getUserAnalyses, hp, hl]
      split
      · exact hinv
      · split
        · exact hinv
        · intro e he
          refine bounded_put hinv ?_ e he
          simp only [List.length_map]
          have h1 : ∀ xs : List AnalysisRow, (xs.take l.toNat).length ≤ l.toNat := fun xs => by
            rw [List.length_take]
            exact min_le_left _ _
          have h2 : l.toNat ≤ 50 := by omega
          exact le_trans (h1 _) h2

theorem createAnalysis_preserves (env : AnalysisController.CreateEnv) (db : Db)
    (cache : Cache) (rid : String) (pn : Nat) (uid : String)
    (hinv : listCacheBounded cache) :
    listCacheBounded (AnalysisController.createAnalysis env db cache rid pn uid).cache := by
  have hproceed : ∀ (db' : Db) (repo : Repo), listCacheBounded
      (AnalysisController.proceedCreate env db' cache repo rid pn uid).cache := by
    intro db' repo
    cases hpr : env.prInfo with
    | error m =>
      simp only [AnalysisController.proceedCreate, hpr]
      exact hinv
    | ok b =>
      cases b
      · simp only [AnalysisController.proceedCreate, hpr]
        exact hinv
      · simp only [AnalysisController.proceedCreate, hpr]
        exact bounded_del hinv
  cases hrepo : db.repos.find? (fun rr => rr.id == rid && rr.userId == uid && rr.isActive) with
  | none =>
    simp only [AnalysisController.createAnalysis, hrepo]
    exact hinv
  | some repo =>
    cases hacc : env.hasAccess with
    | false =>
      simp only [AnalysisController.createAnalysis, hrepo, hacc, Bool.not_false, if_true]
      exact hinv
    | true =>
      cases hfind : db.analyses.find? (AnalysisController.keyPred rid pn) with
      | none =>
        simp only [AnalysisController.createAnalysis, hrepo, hacc, Bool.not_true, if_false,
          hfind]
        exact hproceed db repo
      | some existing =>
        cases hstat : existing.status with
        | COMPLETED =>
          simp only [AnalysisController.createAnalysis, hrepo, hacc, Bool.not_true, if_false,
            hfind, hstat]
          simp only [show ((Status.COMPLETED == Status.COMPLETED) = true) from rfl, if_true]
          rw [getAnalysisWithSuggestions_undefined]
          exact hinv
        | PENDING =>
          simp [AnalysisController.createAnalysis, hrepo, hacc, hfind, hstat]
          exact fun a b h => hinv (a, b) h
        | PROCESSING =>
          simp [AnalysisController.createAnalysis, hrepo, hacc, hfind, hstat]
          exact fun a b h => hinv (a, b) h
        | FAILED =>
          simp only [AnalysisController.createAnalysis, hrepo, hacc, Bool.not_true, if_false,
            hfind, hstat]
          simp only [show ((Status.FAILED == Status.COMPLETED) = false) from rfl,
            show ((Status.FAILED == Status.PROCESSING) = false) from rfl,
            show ((Status.FAILED == Status.PENDING) = false) from rfl, Bool.or_self, if_false]
          exact hproceed _ repo

theorem getAnalysis_preserves (db : Db) (cache : Cache) (aid uid : String)
    (hinv : listCacheBounded cache) :
    listCacheBounded (AnalysisController.getAnalysis db cache aid uid).2 := by
  simp only [AnalysisController.getAnalysis]
  cases hlk : lookupKey cache.analysisCache ("analysis:" ++ aid) with
  | some d =>
    simp only [hlk]
    split
    · exact hinv
    · exact hinv
  | none =>
    simp only [hlk]
    rw [getAnalysisWithSuggestions_undefined]
    exact hinv

theorem deleteAnalysis_preserves (db : Db) (cache : Cache) (aid uid : String)
    (hinv : listCacheBounded cache) :
    listCacheBounded (AnalysisController.deleteAnalysis db cache aid uid).2.2 := by
  simp only [AnalysisController.deleteAnalysis]
  cases hf : db.analyses.find? (fun a => a.id == aid) with
  | none =>
    simp only [hf]
    exact hinv
  | some a =>
    simp only [hf]
    split
    · exact hinv
    · split
      · exact hinv
      · exact bounded_del hinv

theorem getAnalysisStats_preserves (db : Db) (cache : Cache) (uid : String)
    (hinv : listCacheBounded cache) :
    listCacheBounded (AnalysisController.getAnalysisStats db cache uid).2 := by
  simp only [AnalysisController.getAnalysisStats]
  cases hlk : lookupKey cache.statsCache ("user:stats:" ++ uid) with
  | some s =>
    simp only [hlk]
    exact hinv
  | none =>
    simp only [hlk]
    exact hinv

/-- C9 (amended): whenever page and limit parse to integers (absent
values default to 1 and 10), the effective page number is clamped to ≥ 1
and the effective page size into 1..50, and no response page ever
contains more than 50 analyses: every listing response — cache-served or
freshly computed — is bounded by 50, because freshly computed pages take
at most the clamped limit and every operation preserves the invariant
that cached listing pages hold at most 50 entries (true of the empty
initial cache, since only getUserAnalyses writes listing entries). A
non-numeric page or limit value instead yields NaN and no page at
all. -/
theorem C9_pagination_clamped :
    (∀ s k, jsParseInt s = some k →
        AnalysisController.effPageNum (some s) = some (max 1 k)
        ∧ AnalysisController.effLimitNum (some s) = some (max 1 (min 50 k)))
    ∧ (∀ x p, AnalysisController.effPageNum x = some p → 1 ≤ p)
    ∧ (∀ x l, AnalysisController.effLimitNum x = some l → 1 ≤ l ∧ l ≤ 50)
    ∧ AnalysisController.effPageNum none = some 1
    ∧ AnalysisController.effLimitNum none = some 10
    ∧ (∀ (db : Db) (cache : Cache) (uid : String) (q : AnalysisController.ListQuery)
          (r : ListResp),
        listCacheBounded cache →
        (AnalysisController.getUserAnalyses db cache uid q).1 = .ok r →
        r.analyses.length ≤ 50)
    ∧ listCacheBounded ⟨[], [], [], []⟩
    ∧ (∀ (db : Db) (cache : Cache) (uid : String) (q : AnalysisController.ListQuery),
        listCacheBounded cache →
        listCacheBounded (AnalysisController.getUserAnalyses db cache uid q).2)
    ∧ (∀ (env : AnalysisController.CreateEnv) (db : Db) (cache : Cache) (rid : String)
          (pn : Nat) (uid : String),
        listCacheBounded cache →
        listCacheBounded (AnalysisController.createAnalysis env db cache rid pn uid).cache)
    ∧ (∀ (db : Db) (cache : Cache) (aid uid : String),
        listCacheBounded cache →
        listCacheBounded (AnalysisController.getAnalysis db cache aid uid).2)
    ∧ (∀ (db : Db) (cache : Cache) (aid uid : String),
        listCacheBounded cache →
        listCacheBounded (AnalysisController.deleteAnalysis db cache aid uid).2.2)
    ∧ (∀ (db : Db) (cache : Cache) (uid : String),
        listCacheBounded cache →
        listCacheBounded (AnalysisController.getAnalysisStats db cache uid).2) := by
  refine ⟨?_, ?_, ?_, rfl, rfl, ?_, ?_, ?_, ?_, ?_, ?_, ?_⟩
  · intro s k h
    constructor
    · simp [AnalysisController.effPageNum, h]
    · simp [AnalysisController.effLimitNum, h]
  · intro x p h; exact effPageNum_pos h
  · intro x l h; exact effLimitNum_bounds h
  · exact fun db cache uid q r hinv hok => getUserAnalyses_ok_bound hinv hok
  · intro e he; exact absurd he (List.not_mem_nil e)
  · exact fun db cache uid q hinv => getUserAnalyses_preserves hinv
  · exact fun env db cache rid pn uid hinv => createAnalysis_preserves env db cache rid pn uid hinv
  · exact fun db cache aid uid hinv => getAnalysis_preserves db cache aid uid hinv
  · exact fun db cache aid uid hinv => deleteAnalysis_preserves db cache aid uid hinv
  · exact fun db cache uid hinv => getAnalysisStats_preserves db cache uid hinv

theorem C9_pagination_clamped_witness :
    (∃ p, AnalysisController.effPageNum (some "7") = some p ∧ 1 ≤ p)
    ∧ (∃ l, AnalysisController.effLimitNum (some "999") = some l ∧ 1 ≤ l ∧ l ≤ 50)
    ∧ (∃ r, (AnalysisController.getUserAnalyses ⟨[], []⟩ ⟨[], [], [], []⟩ "u" {}).1 = .ok r
        ∧ r.analyses.length ≤ 50) := by
  obtain ⟨h1, h2, h3, h4, h5, h6, h7, h8, h9, h10, h11, h12⟩ := C9_pagination_clamped
  refine ⟨⟨7, ?_, by norm_num⟩, ⟨50, ?_, by norm_num, by norm_num⟩, ?_⟩
  · simpa using (h1 "7" 7 rfl).1
  · simpa using (h1 "999" 999 rfl).2
  · exact ⟨⟨[], 0, 1, 10⟩, rfl,
      h6 ⟨[], []⟩ ⟨[], [], [], []⟩ "u" {} ⟨[], 0, 1, 10⟩ h7 rfl⟩

/-- C1 (code bug): the COMPLETED-reuse branch is meant to return the
existing record's id together with its suggestions, but the controller
passes only the analysis id to the two-parameter
AnalysisService.getAnalysisWithSuggestions, whose ownership check
compares the string owner against an undefined userId and therefore
always throws NotFoundError — the request fails with 404 "Analysis not
found" instead of returning the record. It still creates no record,
changes neither store nor cache, and invokes neither the diff fetcher
nor the suggestion engine. -/
theorem C1_completed_reuse_404 (env : AnalysisController.CreateEnv) (db : Db) (cache : Cache)
    (rid : String) (pn : Nat) (uid : String) (repo : Repo) (existing : AnalysisRow)
    (hrepo : db.repos.find? (fun r => r.id == rid && r.userId == uid && r.isActive) = some repo)
    (hacc : env.hasAccess = true)
    (hfind : db.analyses.find? (AnalysisController.keyPred rid pn) = some existing)
    (hstat : existing.status = .COMPLETED) :
    (AnalysisController.createAnalysis env db cache rid pn uid).result
      = .error (.notFound "Analysis not found")
    ∧ AnalysisService.getAnalysisWithSuggestions db cache existing.id none
      = (.error (.notFound "Analysis not found"), cache)
    ∧ (AnalysisController.createAnalysis env db cache rid pn uid).db = db
    ∧ (AnalysisController.createAnalysis env db cache rid pn uid).cache = cache
    ∧ (AnalysisController.createAnalysis env db cache rid pn uid).scheduledPipeline = false
    ∧ AnalysisController.invokesDiffFetcher
        (AnalysisController.createAnalysis env db cache rid pn uid) = false
    ∧ AnalysisController.invokesSuggestionEngine
        (AnalysisController.createAnalysis env db cache rid pn uid) = false := by
  refine ⟨?_, getAnalysisWithSuggestions_undefined db cache existing.id, ?_, ?_, ?_, ?_, ?_⟩ <;>
    simp [AnalysisController.createAnalysis, AnalysisController.invokesDiffFetcher,
      AnalysisController.invokesSuggestionEngine, hrepo, hacc, hfind, hstat,
      getAnalysisWithSuggestions_undefined]

theorem C1_completed_reuse_404_witness :
    (AnalysisController.createAnalysis ⟨true, .ok true, "new", 999⟩
      ⟨[⟨"r1", "u1", "o/r", "r", true⟩],
       [⟨"a1", "r1", "u1", 5, "sha", .COMPLETED, some 10, 100, some 200, []⟩]⟩
      ⟨[], [], [], []⟩ "r1" 5 "u1").result
      = .error (.notFound "Analysis not found") :=
  (C1_completed_reuse_404 ⟨true, .ok true, "new", 999⟩
    ⟨[⟨"r1", "u1", "o/r", "r", true⟩],
     [⟨"a1", "r1", "u1", 5, "sha", .COMPLETED, some 10, 100, some 200, []⟩]⟩
    ⟨[], [], [], []⟩ "r1" 5 "u1" ⟨"r1", "u1", "o/r", "r", true⟩
    ⟨"a1", "r1", "u1", 5, "sha", .COMPLETED, some 10, 100, some 200, []⟩
    rfl rfl rfl rfl).1

theorem active_after_insert {l : List AnalysisRow} {rid : String} {pn : Nat}
    (newRec : AnalysisRow)
    (hnew : newRec.repositoryId = rid ∧ newRec.prNumber = pn)
    (hzero : keyCount l rid pn = 0)
    (hall : ∀ r p, activeCount l r p ≤ 1) :
    ∀ r p, activeCount (l ++ [newRec]) r p ≤ 1 := by
  intro r p
  rw [activeCount_append]
  by_cases hk : AnalysisController.keyPred r p newRec = true
  · have hr : rid = r ∧ pn = p := by
      rcases hnew with ⟨h1, h2⟩
      unfold AnalysisController.keyPred at hk
      rw [h1, h2] at hk
      simpa using hk
    rcases hr with ⟨rfl, rfl⟩
    have h0 : activeCount l rid pn = 0 :=
      Nat.eq_zero_of_le_zero (le_trans (activeCount_le_keyCount _ _ _) (le_of_eq hzero))
    have h1 : activeCount [newRec] rid pn ≤ 1 := by
      refine le_trans (activeCount_le_keyCount _ _ _) ?_
      simpa [keyCount] using List.length_filter_le (AnalysisController.keyPred rid pn) [newRec]
    omega
  · rw [Bool.not_eq_true] at hk
    have h0 : activeCount [newRec] r p = 0 := by
      simp [activeCount, List.filter, hk]
    have := hall r p
    omega

theorem proceedCreate_active (env : AnalysisController.CreateEnv) (cache : Cache) (repo : Repo)
    (rid : String) (pn : Nat) (uid : String) (db' : Db)
    (hzero : keyCount db'.analyses rid pn = 0)
    (hall : ∀ r p, activeCount db'.analyses r p ≤ 1) :
    ∀ r p,
      activeCount (AnalysisController.proceedCreate env db' cache repo rid pn uid).db.analyses r p
        ≤ 1 := by
  intro r p
  cases hpr : env.prInfo with
  | error m =>
    simp only [AnalysisController.proceedCreate, hpr]
    exact hall r p
  | ok b =>
    cases b
    · simp only [AnalysisController.proceedCreate, hpr]
      exact hall r p
    · simp only [AnalysisController.proceedCreate, hpr]
      exact active_after_insert _ ⟨rfl, rfl⟩ hzero hall r p

/-- C2: (behavior) a create-analysis request that finds a PENDING or
PROCESSING record for the pair answers with that record's id and status,
changes nothing and schedules no pipeline; (invariant) assuming the
store's unique constraint on (repositoryId, prNumber), after any
create-analysis call each pair still has at most one PENDING/PROCESSING
record. -/
theorem C2_at_most_one_active (env : AnalysisController.CreateEnv) (db : Db) (cache : Cache)
    (rid : String) (pn : Nat) (uid : String)
    (hkey : ∀ r p, keyCount db.analyses r p ≤ 1) :
    (∀ repo existing,
        db.repos.find? (fun r => r.id == rid && r.userId == uid && r.isActive) = some repo →
        env.hasAccess = true →
        db.analyses.find? (AnalysisController.keyPred rid pn) = some existing →
        (existing.status = .PENDING ∨ existing.status = .PROCESSING) →
        (AnalysisController.createAnalysis env db cache rid pn uid).result
          = .ok (.alreadyInProgress existing.id existing.status existing.createdAt)
        ∧ (AnalysisController.createAnalysis env db cache rid pn uid).db = db
        ∧ (AnalysisController.createAnalysis env db cache rid pn uid).scheduledPipeline = false)
    ∧ (∀ r p,
        activeCount (AnalysisController.createAnalysis env db cache rid pn uid).db.analyses r p
          ≤ 1) := by
  constructor
  · intro repo existing hrepo hacc hfind hstat
    rcases hstat with hstat | hstat <;>
      refine ⟨?_, ?_, ?_⟩ <;>
        simp [AnalysisController.createAnalysis, hrepo, hacc, hfind, hstat]
  · intro r p
    have hbase : ∀ r p, activeCount db.analyses r p ≤ 1 :=
      fun r p => le_trans (activeCount_le_keyCount _ _ _) (hkey r p)
    cases hrepo : db.repos.find? (fun rr => rr.id == rid && rr.userId == uid && rr.isActive) with
    | none =>
      simp only [AnalysisController.createAnalysis, hrepo]
      exact hbase r p
    | some repo =>
      cases hacc : env.hasAccess with
      | false =>
        simp only [AnalysisController.createAnalysis, hrepo, hacc, Bool.not_false, if_true]
        exact hbase r p
      | true =>
        cases hfind : db.analyses.find? (AnalysisController.keyPred rid pn) with
        | none =>
          simp only [AnalysisController.createAnalysis, hrepo, hacc, Bool.not_true, if_false,
            hfind]
          exact proceedCreate_active env cache repo rid pn uid db
            (keyCount_eq_zero_of_find_none hfind) hbase r p
        | some existing =>
          cases hstat : existing.status with
          | COMPLETED =>
            simp only [AnalysisController.createAnalysis, hrepo, hacc, Bool.not_true, if_false,
              hfind, hstat]
            simp only [show ((Status.COMPLETED == Status.COMPLETED) = true) from rfl, if_true]
            rw [getAnalysisWithSuggestions_undefined]
            exact hbase r p
          | PENDING =>
            simp [AnalysisController.createAnalysis, hrepo, hacc, hfind, hstat]
            exact hbase r p
          | PROCESSING =>
            simp [AnalysisController.createAnalysis, hrepo, hacc, hfind, hstat]
            exact hbase r p
          | FAILED =>
            simp only [AnalysisController.createAnalysis, hrepo, hacc, Bool.not_true, if_false,
              hfind, hstat]
            simp only [show ((Status.FAILED == Status.COMPLETED) = false) from rfl,
              show ((Status.FAILED == Status.PROCESSING) = false) from rfl,
              show ((Status.FAILED == Status.PENDING) = false) from rfl, Bool.or_self, if_false]
            refine proceedCreate_active env cache repo rid pn uid _ ?_ ?_ r p
            · exact keyCount_after_delete hfind (hkey rid pn)
            · intro r' p'
              exact le_trans (activeCount_filter_le _ _ _ _) (hbase r' p')

theorem C2_at_most_one_active_witness :
    ((AnalysisController.createAnalysis ⟨true, .ok true, "new", 999⟩
        ⟨[⟨"r1", "u1", "o/r", "r", true⟩],
         [⟨"a1", "r1", "u1", 5, "sha", .PENDING, none, 100, none, []⟩]⟩
        ⟨[], [], [], []⟩ "r1" 5 "u1").result
      = .ok (.alreadyInProgress "a1" .PENDING 100))
    ∧ activeCount
        (AnalysisController.createAnalysis ⟨true, .ok true, "new", 999⟩
          ⟨[⟨"r1", "u1", "o/r", "r", true⟩],
           [⟨"a1", "r1", "u1", 5, "sha", .PENDING, none, 100, none, []⟩]⟩
          ⟨[], [], [], []⟩ "r1" 5 "u1").db.analyses "r1" 5 ≤ 1 := by
  have h := C2_at_most_one_active ⟨true, .ok true, "new", 999⟩
    ⟨[⟨"r1", "u1", "o/r", "r", true⟩],
     [⟨"a1", "r1", "u1", 5, "sha", .PENDING, none, 100, none, []⟩]⟩
    ⟨[], [], [], []⟩ "r1" 5 "u1"
    (by
      intro r p
      simpa [keyCount] using List.length_filter_le (AnalysisController.keyPred r p)
        [⟨"a1", "r1", "u1", 5, "sha", .PENDING, none, 100, none, []⟩])
  exact ⟨(h.1 ⟨"r1", "u1", "o/r", "r", true⟩
    ⟨"a1", "r1", "u1", 5, "sha", .PENDING, none, 100, none, []⟩
    rfl rfl rfl (Or.inl rfl)).1, h.2 "r1" 5⟩

theorem runSteps_error_state {env : AnalysisService.PipelineEnv} {s : AnalysisState}
    {m : String} {sf : AnalysisState}
    (h : AnalysisService.runSteps env s = .error (m, sf)) :
    sf.suggestions = s.suggestions
    ∨ ∃ r, env.analyze = .ok r ∧ sf.suggestions = s.suggestions ++ r.suggestions := by
  obtain ⟨re, sp, fd, pl, an, se, sc⟩ := env
  simp only [AnalysisService.runSteps] at h
  cases sp with
  | some m' =>
    simp at h
    exact Or.inl (by rw [← h.2])
  | none =>
    cases fd with
    | error m' =>
      simp at h
      exact Or.inl (by rw [← h.2])
    | ok d =>
      cases pl with
      | some m' =>
        simp at h
        exact Or.inl (by rw [← h.2])
      | none =>
        cases an with
        | error m' =>
          simp at h
          exact Or.inl (by rw [← h.2])
        | ok report =>
          by_cases hemp : report.suggestions.isEmpty
          · simp only [hemp, if_true] at h
            cases sc with
            | some m' =>
              simp at h
              exact Or.inl (by rw [← h.2])
            | none => simp at h
          · simp only [hemp, if_false] at h
            cases se with
            | some m' =>
              simp at h
              exact Or.inl (by rw [← h.2])
            | none =>
              cases sc with
              | some m' =>
                simp at h
                exact Or.inr ⟨report, rfl, by rw [← h.2]⟩
              | none => simp at h

/-- C3: when a pipeline run fails at any step after the record was
loaded, the detached background task finishes normally (nothing escapes
its boundary), the record ends FAILED — never PROCESSING — and exactly
one synthetic error-suggestion, carrying the failure message, is
attached. -/
theorem C3_failure_leaves_failed (env : AnalysisService.PipelineEnv) (s : AnalysisState)
    (m : String)
    (hrec : env.recordExists = true)
    (hclean : errCount s.suggestions = 0)
    (hrep : ∀ r, env.analyze = .ok r → errCount r.suggestions = 0)
    (hfail : (AnalysisService.processAnalysis env s).1 = .error m) :
    (AnalysisService.backgroundTask env s).1 = .ok ()
    ∧ (AnalysisService.backgroundTask env s).2.status = .FAILED
    ∧ (AnalysisService.backgroundTask env s).2.status ≠ .PROCESSING
    ∧ errCount (AnalysisService.backgroundTask env s).2.suggestions = 1
    ∧ AnalysisService.errorSuggestion m ∈ (AnalysisService.backgroundTask env s).2.suggestions := by
  cases hrs : AnalysisService.runSteps env s with
  | ok s' =>
    exfalso
    unfold AnalysisService.processAnalysis at hfail
    simp [hrec, hrs] at hfail
  | error e =>
    obtain ⟨m', sf⟩ := e
    have hm : m' = m := by
      unfold AnalysisService.processAnalysis at hfail
      simp [hrec, hrs] at hfail
      exact hfail
    subst hm
    have hbt : AnalysisService.backgroundTask env s
        = (.ok (),
           { status := Status.FAILED
             suggestions := sf.suggestions ++ [AnalysisService.errorSuggestion m']
             totalLines := sf.totalLines
             completedAt := sf.completedAt }) := by
      unfold AnalysisService.backgroundTask AnalysisService.processAnalysis
      simp [hrec, hrs]
    rw [hbt]
    refine ⟨rfl, rfl, by simp, ?_, ?_⟩
    · show errCount (sf.suggestions ++ [AnalysisService.errorSuggestion m']) = 1
      rw [errCount, List.filter_append, List.length_append]
      have h1 : (List.filter isErrorSuggestion [AnalysisService.errorSuggestion m']).length = 1 := by
        simp [isErrorSuggestion, AnalysisService.errorSuggestion, List.filter]
      have h0 : (List.filter isErrorSuggestion sf.suggestions).length = 0 := by
        rcases runSteps_error_state hrs with hcase | ⟨r, hr, hcase⟩
        · rw [hcase]
          exact hclean
        · rw [hcase, List.filter_append, List.length_append]
          have ha := hclean
          have hb := hrep r hr
          rw [errCount] at ha hb
          omega
      omega
    · show AnalysisService.errorSuggestion m'
        ∈ sf.suggestions ++ [AnalysisService.errorSuggestion m']
      exact List.mem_append_right _ (List.mem_singleton.mpr rfl)

theorem C3_failure_leaves_failed_witness :
    (AnalysisService.backgroundTask
        ⟨true, none, .ok ⟨⟨1, "t", none, 0, 0, 0⟩, []⟩, none, .error "boom", none, none⟩
        ⟨.PENDING, [], none, false⟩).1 = .ok ()
    ∧ (AnalysisService.backgroundTask
        ⟨true, none, .ok ⟨⟨1, "t", none, 0, 0, 0⟩, []⟩, none, .error "boom", none, none⟩
        ⟨.PENDING, [], none, false⟩).2.status = .FAILED
    ∧ errCount (AnalysisService.backgroundTask
        ⟨true, none, .ok ⟨⟨1, "t", none, 0, 0, 0⟩, []⟩, none, .error "boom", none, none⟩
        ⟨.PENDING, [], none, false⟩).2.suggestions = 1 := by
  have h := C3_failure_leaves_failed
    ⟨true, none, .ok ⟨⟨1, "t", none, 0, 0, 0⟩, []⟩, none, .error "boom", none, none⟩
    ⟨.PENDING, [], none, false⟩ "boom" rfl rfl
    (fun r hr => Except.noConfusion hr) rfl
  exact ⟨h.1, h.2.1, h.2.2.2.1⟩

/-- C5 (amended): for every engine response whose payload fails parsing
or structural validation, the adapter returns the single fallback report
(one MEDIUM-severity suggestion under the reserved "Analysis Error"
category), and a pipeline run that receives this fallback still reaches
COMPLETED. An unrecoverable call failure, by contrast, is rethrown as an
error by the adapter (see the counterexample), so that run ends FAILED
rather than receiving a fallback. -/
theorem C5_fallback_completed :
    (∀ resp : Except Unit JValue,
        (resp = .error () ∨ ∃ v, resp = .ok v ∧ OpenAIService.validatePayload v = none) →
        OpenAIService.parseAndValidateResponse resp = OpenAIService.getFallbackAnalysis)
    ∧ OpenAIService.getFallbackAnalysis.suggestions.length = 1
    ∧ (∀ sg ∈ OpenAIService.getFallbackAnalysis.suggestions,
        sg.severity = "MEDIUM" ∧ sg.category = "Analysis Error")
    ∧ (∀ env s, env.recordExists = true → env.setProcessingErr = none →
        (∃ d, env.fetchDiff = .ok d) → env.persistLinesErr = none →
        env.analyze = .ok OpenAIService.getFallbackAnalysis →
        env.saveErr = none → env.setCompletedErr = none →
        (AnalysisService.backgroundTask env s).1 = .ok ()
        ∧ (AnalysisService.backgroundTask env s).2.status = .COMPLETED) := by
  refine ⟨?_, rfl, ?_, ?_⟩
  · rintro resp (rfl | ⟨v, rfl, hv⟩)
    · rfl
    · simp [OpenAIService.parseAndValidateResponse, hv]
  · intro sg hsg
    simp only [OpenAIService.getFallbackAnalysis, List.mem_singleton] at hsg
    subst hsg
    exact ⟨rfl, rfl⟩
  · rintro env s h1 h2 ⟨d, h3⟩ h4 h5 h6 h7
    obtain ⟨re, sp, fd, pl, an, se, sc⟩ := env
    simp only at h1 h2 h3 h4 h5 h6 h7
    subst h1; subst h2; subst h3; subst h4; subst h5; subst h6; subst h7
    constructor <;>
      simp [AnalysisService.backgroundTask, AnalysisService.processAnalysis,
        AnalysisService.runSteps, OpenAIService.getFallbackAnalysis]

theorem C5_fallback_completed_witness :
    OpenAIService.parseAndValidateResponse (.ok (.jstr "not an object"))
      = OpenAIService.getFallbackAnalysis
    ∧ (AnalysisService.backgroundTask
        ⟨true, none, .ok ⟨⟨1, "t", none, 0, 0, 0⟩, []⟩, none,
         .ok OpenAIService.getFallbackAnalysis, none, none⟩
        ⟨.PENDING, [], none, false⟩).2.status = .COMPLETED := by
  obtain ⟨h1, _, _, h4⟩ := C5_fallback_completed
  refine ⟨h1 (.ok (.jstr "not an object")) (Or.inr ⟨.jstr "not an object", rfl, rfl⟩), ?_⟩
  exact (h4 ⟨true, none, .ok ⟨⟨1, "t", none, 0, 0, 0⟩, []⟩, none,
      .ok OpenAIService.getFallbackAnalysis, none, none⟩
    ⟨.PENDING, [], none, false⟩ rfl rfl ⟨⟨⟨1, "t", none, 0, 0, 0⟩, []⟩, rfl⟩ rfl rfl rfl rfl).2

/-- C5 counterexample: on an unrecoverable call failure the adapter does
not return the fallback report — the catch block of analyzeCode rethrows
a mapped error instead, so the claim's call-failure half is false. -/
theorem C5_call_failure_counterexample :
    OpenAIService.analyzeCode none (.error ⟨"rate_limit_exceeded", "429 Too Many Requests"⟩)
      = .error "OpenAI rate limit exceeded. Please try again later."
    ∧ OpenAIService.analyzeCode none (.error ⟨"rate_limit_exceeded", "429 Too Many Requests"⟩)
      ≠ .ok OpenAIService.getFallbackAnalysis := by
  refine ⟨rfl, fun h => ?_⟩
  rw [show OpenAIService.analyzeCode none
      (.error ⟨"rate_limit_exceeded", "429 Too Many Requests"⟩)
      = .error "OpenAI rate limit exceeded. Please try again later." from rfl] at h
  exact Except.noConfusion h

set_option maxRecDepth 4000 in
/-- C6 (amended): every suggestion the engine adapter cleans satisfies
the field bounds (lineNumber ≥ 1, message ≤ 200, suggestion ≤ 500,
codeSnippet ≤ 300); the synthetic error-suggestion has lineNumber 1 and
a fixed short message, but its suggestion text is "Error: " prefixed to
the raw failure message with no truncation, so it is not bounded by 500
(see the counterexample). -/
theorem C6_clean_suggestion_bounds :
    (∀ v sg, OpenAIService.cleanSuggestion v = .ok sg →
        1 ≤ sg.lineNumber ∧ sg.message.length ≤ 200 ∧ sg.suggestion.length ≤ 500
        ∧ ∀ cs, sg.codeSnippet = some cs → cs.length ≤ 300)
    ∧ (∀ m, (AnalysisService.errorSuggestion m).lineNumber = 1
        ∧ (AnalysisService.errorSuggestion m).message.length ≤ 200
        ∧ (AnalysisService.errorSuggestion m).suggestion = "Error: " ++ m) := by
  constructor
  · intro v sg h
    unfold OpenAIService.cleanSuggestion at h
    split at h <;>
      first
      | (dsimp only at h
         split at h
         · split at h
           · injection h with h'
             subst h'
             dsimp only
             refine ⟨le_max_left _ _, take_length_le _ _, take_length_le _ _, ?_⟩
             intro cs hcs
             injection hcs with h''
             rw [← h'']
             exact take_length_le _ _
           · exact Except.noConfusion h
         · injection h with h'
           subst h'
           dsimp only
           refine ⟨le_max_left _ _, take_length_le _ _, take_length_le _ _, ?_⟩
           intro cs hcs
           exact Option.noConfusion hcs)
      | exact Except.noConfusion h
  · intro m
    refine ⟨rfl, ?_, rfl⟩
    show ("Analysis failed to complete" : String).length ≤ 200
    decide

theorem C6_clean_suggestion_bounds_witness :
    (∃ sg, OpenAIService.cleanSuggestion (.jobj
        [("filePath", .jstr "a.js"), ("lineNumber", .jnum 0), ("severity", .jstr "HIGH"),
         ("category", .jstr "Security"), ("message", .jstr "m"), ("suggestion", .jstr "s")])
      = .ok sg ∧ 1 ≤ sg.lineNumber ∧ sg.message.length ≤ 200 ∧ sg.suggestion.length ≤ 500)
    ∧ (AnalysisService.errorSuggestion "boom").lineNumber = 1 := by
  obtain ⟨h1, h2⟩ := C6_clean_suggestion_bounds
  refine ⟨⟨⟨"a.js".trim, max 1 (if (0 : Int) = 0 then 1 else 0), "HIGH".toUpper,
      "Security".trim, ("m".trim).take 200, ("s".trim).take 500, none⟩, rfl, ?_⟩,
    (h2 "boom").1⟩
  have h := h1 (.jobj
      [("filePath", .jstr "a.js"), ("lineNumber", .jnum 0), ("severity", .jstr "HIGH"),
       ("category", .jstr "Security"), ("message", .jstr "m"), ("suggestion", .jstr "s")])
    ⟨"a.js".trim, max 1 (if (0 : Int) = 0 then 1 else 0), "HIGH".toUpper,
      "Security".trim, ("m".trim).take 200, ("s".trim).take 500, none⟩ rfl
  exact ⟨h.1, h.2.1, h.2.2.1⟩

/-- C6 counterexample: a pipeline failure whose message has 500
characters persists a synthetic error-suggestion whose suggestion text
has 507 characters — the ≤ 500 bound does not hold for the synthetic
error-suggestion. -/
theorem C6_error_suggestion_oversized :
    500 < ((AnalysisService.errorSuggestion
        (String.mk (List.replicate 500 'x'))).suggestion).length
    ∧ (AnalysisService.backgroundTask
        ⟨true, none, .ok ⟨⟨1, "t", none, 0, 0, 0⟩, []⟩, none,
         .error (String.mk (List.replicate 500 'x')), none, none⟩
        ⟨.PENDING, [], none, false⟩).2.suggestions
      = [AnalysisService.errorSuggestion (String.mk (List.replicate 500 'x'))] := by
  constructor
  · show 500 < ("Error: " ++ String.mk (List.replicate 500 'x')).length
    rw [← String.length_data]
    show 500 < ("Error: ".data ++ List.replicate 500 'x').length
    rw [List.length_append, List.length_replicate]
    norm_num
  · rfl

/-- C4 (code bug): deleting analysis `a1` clears only the keys
`analysis:a1` and `user:analyses:u1`, but listings are cached under
`user:analyses:u1:<page>:<limit>:<filters>` and statistics under
`user:stats:u1`, so after the delete both reads still serve the
pre-write data from cache while the store no longer has the record. -/
theorem C4_stale_cache_after_delete :
    c4del.1 = .ok ()
    ∧ c4del.2.1.analyses = []
    ∧ c4list2.1 = c4list1.1
    ∧ c4list2.1 = .ok { analyses := [{ id := "a1", prNumber := 5, status := .COMPLETED,
                                       suggestionsCount := 1 }],
                        total := 1, page := 1, limit := 10 }
    ∧ c4stats2.1 = c4stats1.1
    ∧ c4stats2.1 = .ok { totalAnalyses := 1, completedAnalyses := 1, failedAnalyses := 0,
                         processingAnalyses := 0, totalSuggestions := 1 } :=
  ⟨rfl, rfl, rfl, rfl, rfl, rfl⟩

end CodeReviewApi
